import Mathlib

/-!
# Verification of the atomic-ops header and the SHA-1 digest wrapper

This file gives a shallow embedding of the two source files of the
repository fragment:

* `pkgs/kernels/canneal/src/atomic/riscv64/atomic.h` — a family of atomic
  read-modify-write primitives over 8/16/32/64-bit unsigned words,
  implemented as thin wrappers over GCC atomic built-ins.  A word of
  width `w` is modelled as a `Nat` reduced modulo `2 ^ w`; each primitive
  becomes a pure state-transition function from the value of the word
  before the call to the value after the call (paired with the returned
  value where the C function returns one).

* `pkgs/netapps/netdedup/src/server/sha.c` — the `SHA1_Digest` wrapper,
  which initialises a fresh local SHA context, feeds the whole buffer
  once and finalises into a 20-byte output.  The underlying hash
  primitives live in an external cryptographic library, so they are
  modelled from the spec (SHA-1 as standardised), while the wrapper
  itself is translated from the source.
-/

namespace AtomicOps

/-! ## Models of the GCC atomic built-ins

Each built-in acts on a single memory word of width `w` bits.  The word
is represented by its current value (a `Nat`); the built-in returns the
new value of the word together with whatever the built-in itself
returns.  All stored values are reduced modulo `2 ^ w`, mirroring the
fixed-width store performed by the hardware instruction. -/

/-- Model of the bitwise complement at width `w`: the C expression
`(C_TYPE)(~v)` truncated to `w` bits. -/
def wnot (w v : Nat) : Nat := (2 ^ w - 1) ^^^ (v % 2 ^ w)

/-- Model of the built-in with atomic fetch and or:
new word value and returned previous value. -/
def fetchOr (w x v : Nat) : Nat × Nat :=
  ((x % 2 ^ w ||| v % 2 ^ w), x % 2 ^ w)

/-- Model of the built-in with atomic fetch and and:
new word value and returned previous value. -/
def fetchAnd (w x v : Nat) : Nat × Nat :=
  ((x % 2 ^ w &&& v % 2 ^ w), x % 2 ^ w)

/-- Model of the built-in with atomic fetch and add:
new word value and returned previous value. -/
def fetchAddB (w x v : Nat) : Nat × Nat :=
  ((x % 2 ^ w + v % 2 ^ w) % 2 ^ w, x % 2 ^ w)

/-- Model of the built-in with atomic fetch and sub:
new word value and returned previous value. -/
def fetchSubB (w x v : Nat) : Nat × Nat :=
  ((x % 2 ^ w + (2 ^ w - v % 2 ^ w)) % 2 ^ w, x % 2 ^ w)

/-- Model of the compare-exchange built-in at width `w`.  Input: current
word value `dst`, the callee's local `expected` variable, and the new
value `src`.  Output: the new word value, the new value of the local
`expected` variable (the built-in writes the observed word value into it
on failure), and the success flag. -/
def cmpExchange (w dst expected src : Nat) : Nat × Nat × Bool :=
  if dst % 2 ^ w = expected % 2 ^ w then
    (src % 2 ^ w, expected, true)
  else
    (dst % 2 ^ w, dst % 2 ^ w, false)

/-- Model of the atomic exchange built-in: stores `v`, returns the
previous value. -/
def exchange (w x v : Nat) : Nat × Nat :=
  (v % 2 ^ w, x % 2 ^ w)

/-! ## The `ATOMIC_OP` macro family

`ATOMIC_OP(NAME, TYPE, C_TYPE, BUILTIN_OP, ADJ_V)` generates a `void`
function calling the corresponding fetch built-in and discarding its
return value.  The generated function is therefore a state transition on
the word; the generator is parametric in the width, exactly as the macro
is parametric in `C_TYPE`. -/

/-- Generic body generated by `ATOMIC_OP(set, ...)`: fetch-or with `v`,
result discarded. -/
def atomic_set (w x v : Nat) : Nat := (fetchOr w x v).1

/-- Generic body generated by `ATOMIC_OP(clear, ...)`: fetch-and with
`~v`, result discarded. -/
def atomic_clear (w x v : Nat) : Nat := (fetchAnd w x (wnot w v)).1

/-- Generic body generated by `ATOMIC_OP(add, ...)`: fetch-add with `v`,
result discarded. -/
def atomic_add (w x v : Nat) : Nat := (fetchAddB w x v).1

/-- Generic body generated by `ATOMIC_OP(subtract, ...)`: fetch-sub with
`v`, result discarded. -/
def atomic_subtract (w x v : Nat) : Nat := (fetchSubB w x v).1

/-! Instantiations, one per line of the source's instantiation table. -/

def atomic_set_char (x v : Nat) : Nat := atomic_set 8 x v
def atomic_clear_char (x v : Nat) : Nat := atomic_clear 8 x v
def atomic_add_char (x v : Nat) : Nat := atomic_add 8 x v
def atomic_subtract_char (x v : Nat) : Nat := atomic_subtract 8 x v

def atomic_set_short (x v : Nat) : Nat := atomic_set 16 x v
def atomic_clear_short (x v : Nat) : Nat := atomic_clear 16 x v
def atomic_add_short (x v : Nat) : Nat := atomic_add 16 x v
def atomic_subtract_short (x v : Nat) : Nat := atomic_subtract 16 x v

def atomic_set_int (x v : Nat) : Nat := atomic_set 32 x v
def atomic_clear_int (x v : Nat) : Nat := atomic_clear 32 x v
def atomic_add_int (x v : Nat) : Nat := atomic_add 32 x v
def atomic_subtract_int (x v : Nat) : Nat := atomic_subtract 32 x v

def atomic_set_long (x v : Nat) : Nat := atomic_set 64 x v
def atomic_clear_long (x v : Nat) : Nat := atomic_clear 64 x v
def atomic_add_long (x v : Nat) : Nat := atomic_add 64 x v
def atomic_subtract_long (x v : Nat) : Nat := atomic_subtract 64 x v

/-! ## Compare-and-swap

The C functions copy the caller's `exp` argument into a local variable
`expected`, call the compare-exchange built-in on that local, and return
the built-in's success flag converted to `int` (1 on success, 0 on
failure).  The updated local is discarded. -/

/-- `atomic_cmpset_int(dst, exp, src)`: new word value and the returned
`int`. -/
def atomic_cmpset_int (dst exp src : Nat) : Nat × Nat :=
  let expected := exp
  let r := cmpExchange 32 dst expected src
  (r.1, if r.2.2 then 1 else 0)

/-- `atomic_cmpset_long(dst, exp, src)`: new word value and the returned
`int`. -/
def atomic_cmpset_long (dst exp src : Nat) : Nat × Nat :=
  let expected := exp
  let r := cmpExchange 64 dst expected src
  (r.1, if r.2.2 then 1 else 0)

/-- The caller-visible variables around a cmpset call: the word `dst`
points to and the caller's expected-value variable, which is passed to
the function by value. -/
structure CmpsetCaller where
  dst : Nat
  exp : Nat
  deriving DecidableEq, Repr

/-- One call to `atomic_cmpset` at width `w`, seen from the caller:
the caller's `exp` variable is copied by value into the callee local
`expected`; the built-in updates the word and possibly that local.
Returns the caller's variables after the call, the final value of the
callee's local `expected`, and the returned `int`. -/
def cmpsetCall (w : Nat) (s : CmpsetCaller) (src : Nat) :
    CmpsetCaller × Nat × Nat :=
  let expected := s.exp
  let r := cmpExchange w s.dst expected src
  (⟨r.1, s.exp⟩, r.2.1, if r.2.2 then 1 else 0)

/-! ## Fetch-add / fetch-subtract -/

/-- `atomic_fetchadd_int(p, v)`: new word value and the returned
pre-operation value. -/
def atomic_fetchadd_int (x v : Nat) : Nat × Nat := fetchAddB 32 x v

/-- `atomic_fetchsubtract_int(p, v)`: `v` is a signed `int`; the body
adds `(u_int)(-v)`.  The cast of the (mathematically exact) negation to
`u_int` reduces it modulo `2 ^ 32`.  New word value and the returned
pre-operation value. -/
def atomic_fetchsubtract_int (x : Nat) (v : Int) : Nat × Nat :=
  fetchAddB 32 x (Int.toNat ((-v) % (2 ^ 32 : Int)))

/-! ## Load-acquire / store-release -/

/-- Generic body generated by `ATOMIC_LOAD_ACQ`: returns the current
word value, leaves the word unchanged. -/
def atomic_load_acq (w x : Nat) : Nat := x % 2 ^ w

/-- Generic body generated by `ATOMIC_STORE_REL`: replaces the word
with `v`. -/
def atomic_store_rel (w _x v : Nat) : Nat := v % 2 ^ w

def atomic_load_acq_char (x : Nat) : Nat := atomic_load_acq 8 x
def atomic_load_acq_short (x : Nat) : Nat := atomic_load_acq 16 x
def atomic_load_acq_int (x : Nat) : Nat := atomic_load_acq 32 x
def atomic_load_acq_long (x : Nat) : Nat := atomic_load_acq 64 x

def atomic_store_rel_char (x v : Nat) : Nat := atomic_store_rel 8 x v
def atomic_store_rel_short (x v : Nat) : Nat := atomic_store_rel 16 x v
def atomic_store_rel_int (x v : Nat) : Nat := atomic_store_rel 32 x v
def atomic_store_rel_long (x v : Nat) : Nat := atomic_store_rel 64 x v

/-! ## Read-and-clear -/

/-- `atomic_readandclear_int(addr)`: atomic exchange with 0; new word
value and the returned previous value. -/
def atomic_readandclear_int (x : Nat) : Nat × Nat := exchange 32 x 0

/-- `atomic_readandclear_long(addr)`: atomic exchange with 0; new word
value and the returned previous value. -/
def atomic_readandclear_long (x : Nat) : Nat × Nat := exchange 64 x 0

/-! ## Acquire/release alias macros

The source defines the acquire/release-suffixed entry points as plain
preprocessor aliases of the default (sequentially consistent) ones; each
alias below is one line of that table. -/

def atomic_set_acq_char : Nat → Nat → Nat := atomic_set_char
def atomic_set_rel_char : Nat → Nat → Nat := atomic_set_char
def atomic_clear_acq_char : Nat → Nat → Nat := atomic_clear_char
def atomic_clear_rel_char : Nat → Nat → Nat := atomic_clear_char
def atomic_add_acq_char : Nat → Nat → Nat := atomic_add_char
def atomic_add_rel_char : Nat → Nat → Nat := atomic_add_char
def atomic_subtract_acq_char : Nat → Nat → Nat := atomic_subtract_char
def atomic_subtract_rel_char : Nat → Nat → Nat := atomic_subtract_char

def atomic_set_acq_short : Nat → Nat → Nat := atomic_set_short
def atomic_set_rel_short : Nat → Nat → Nat := atomic_set_short
def atomic_clear_acq_short : Nat → Nat → Nat := atomic_clear_short
def atomic_clear_rel_short : Nat → Nat → Nat := atomic_clear_short
def atomic_add_acq_short : Nat → Nat → Nat := atomic_add_short
def atomic_add_rel_short : Nat → Nat → Nat := atomic_add_short
def atomic_subtract_acq_short : Nat → Nat → Nat := atomic_subtract_short
def atomic_subtract_rel_short : Nat → Nat → Nat := atomic_subtract_short

def atomic_set_acq_int : Nat → Nat → Nat := atomic_set_int
def atomic_set_rel_int : Nat → Nat → Nat := atomic_set_int
def atomic_clear_acq_int : Nat → Nat → Nat := atomic_clear_int
def atomic_clear_rel_int : Nat → Nat → Nat := atomic_clear_int
def atomic_add_acq_int : Nat → Nat → Nat := atomic_add_int
def atomic_add_rel_int : Nat → Nat → Nat := atomic_add_int
def atomic_subtract_acq_int : Nat → Nat → Nat := atomic_subtract_int
def atomic_subtract_rel_int : Nat → Nat → Nat := atomic_subtract_int
def atomic_cmpset_acq_int : Nat → Nat → Nat → Nat × Nat := atomic_cmpset_int
def atomic_cmpset_rel_int : Nat → Nat → Nat → Nat × Nat := atomic_cmpset_int

def atomic_set_acq_long : Nat → Nat → Nat := atomic_set_long
def atomic_set_rel_long : Nat → Nat → Nat := atomic_set_long
def atomic_clear_acq_long : Nat → Nat → Nat := atomic_clear_long
def atomic_clear_rel_long : Nat → Nat → Nat := atomic_clear_long
def atomic_add_acq_long : Nat → Nat → Nat := atomic_add_long
def atomic_add_rel_long : Nat → Nat → Nat := atomic_add_long
def atomic_subtract_acq_long : Nat → Nat → Nat := atomic_subtract_long
def atomic_subtract_rel_long : Nat → Nat → Nat := atomic_subtract_long
def atomic_cmpset_acq_long : Nat → Nat → Nat → Nat × Nat := atomic_cmpset_long
def atomic_cmpset_rel_long : Nat → Nat → Nat → Nat × Nat := atomic_cmpset_long

/-! ## The entry-point table

Which operation of the interface is provided at which width, exactly as
the header's function definitions and numeric-alias macros provide them
(the `atomic_<op>_<8|16|32|64>` naming layer). -/

/-- The operations of the AtomicOps interface named by the spec. -/
inductive AOp where
  | set | clear | add | subtract
  | cmpset | fetchadd | fetchsubtract
  | load_acq | store_rel | readandclear
  deriving DecidableEq, Repr, Fintype

/-- The four word widths. -/
inductive AWidth where
  | w8 | w16 | w32 | w64
  deriving DecidableEq, Repr, Fintype

/-- Whether the header defines an entry point for the operation at the
width: one case per family of definitions and numeric aliases in the
header.  `set`, `clear`, `add`, `subtract`, `load_acq` and `store_rel`
are generated for all of char/short/int/long; `cmpset` and
`readandclear` exist only for int and long (aliased to widths 32 and
64); `fetchadd` and `fetchsubtract` exist only for int (width 32). -/
def definedAt : AOp → AWidth → Bool
  | .set, _ => true
  | .clear, _ => true
  | .add, _ => true
  | .subtract, _ => true
  | .load_acq, _ => true
  | .store_rel, _ => true
  | .cmpset, .w32 => true
  | .cmpset, .w64 => true
  | .cmpset, _ => false
  | .fetchadd, .w32 => true
  | .fetchadd, _ => false
  | .fetchsubtract, .w32 => true
  | .fetchsubtract, _ => false
  | .readandclear, .w32 => true
  | .readandclear, .w64 => true
  | .readandclear, _ => false

end AtomicOps

namespace Sha

/-! ## The SHA-1 construction

Modelled from the spec: the external cryptographic library behind
`sha.c` (its `SHA1_Init` / `SHA1_Update` / `SHA1_Final` primitives) is
not part of this repository; the spec describes it as the standard
160-bit one-way hash construction with known-answer test vectors, so it
is modelled here as standard SHA-1 over byte lists.  Bytes and 32-bit
words are `Nat`s reduced modulo 256 and `2 ^ 32`. -/

/-- `2 ^ 32`, the word modulus. -/
def M32 : Nat := 4294967296

/-- Reduce to a 32-bit word. -/
def w32 (x : Nat) : Nat := x % M32

/-- Bitwise complement of a 32-bit word. -/
def w32not (x : Nat) : Nat := 4294967295 ^^^ (x % M32)

/-- Rotate a 32-bit word left by `n` bits. -/
def rotl (n x : Nat) : Nat :=
  (((x % M32) <<< n) % M32) ||| ((x % M32) >>> (32 - n))

/-- The SHA-1 round function: choice, parity, majority, parity. -/
def sha1F (t b c d : Nat) : Nat :=
  if t < 20 then (b &&& c) ||| (w32not b &&& d)
  else if t < 40 then b ^^^ c ^^^ d
  else if t < 60 then (b &&& c) ||| (b &&& d) ||| (c &&& d)
  else b ^^^ c ^^^ d

/-- The SHA-1 round constants. -/
def sha1K (t : Nat) : Nat :=
  if t < 20 then 0x5A827999
  else if t < 40 then 0x6ED9EBA1
  else if t < 60 then 0x8F1BBCDC
  else 0xCA62C1D6

/-- Append the next word of the message schedule. -/
def schedStep (ws : List Nat) : List Nat :=
  let t := ws.length
  ws ++ [rotl 1 ((ws.getD (t - 3) 0) ^^^ (ws.getD (t - 8) 0) ^^^
                 (ws.getD (t - 14) 0) ^^^ (ws.getD (t - 16) 0))]

/-- Expand a 16-word block to the 80-word message schedule. -/
def schedule (block : List Nat) : List Nat := schedStep^[64] block

/-- The five 32-bit state words of SHA-1. -/
structure Hv where
  a : Nat
  b : Nat
  c : Nat
  d : Nat
  e : Nat
  deriving DecidableEq, Repr

/-- One SHA-1 compression round at index `t`. -/
def roundStep (ws : List Nat) (st : Hv) (t : Nat) : Hv :=
  ⟨w32 (rotl 5 st.a + sha1F t st.b st.c st.d + st.e + sha1K t + ws.getD t 0),
   st.a, rotl 30 st.b, st.c, st.d⟩

/-- Compress one 16-word block into the chaining state. -/
def compress (h : Hv) (block : List Nat) : Hv :=
  let ws := schedule block
  let st := (List.range 80).foldl (roundStep ws) h
  ⟨w32 (h.a + st.a), w32 (h.b + st.b), w32 (h.c + st.c),
   w32 (h.d + st.d), w32 (h.e + st.e)⟩

/-- The SHA-1 initial chaining values. -/
def initHv : Hv := ⟨0x67452301, 0xEFCDAB89, 0x98BADCFE, 0x10325476, 0xC3D2E1F0⟩

/-- Big-endian byte expansion of `x` to `n` bytes. -/
def natToBytesBE : Nat → Nat → List Nat
  | 0, _ => []
  | n + 1, x => natToBytesBE n (x / 256) ++ [x % 256]

/-- Pack bytes into big-endian 32-bit words, four at a time. -/
def bytesToWords : List Nat → List Nat
  | a :: b :: c :: d :: rest =>
      (((a * 256 + b) * 256 + c) * 256 + d) :: bytesToWords rest
  | _ => []

/-- SHA-1 padding: a `0x80` byte, zeros to 56 mod 64, then the bit
length as an 8-byte big-endian integer. -/
def padMessage (msg : List Nat) : List Nat :=
  let l := msg.length
  let z := (120 - (l + 1) % 64) % 64
  msg ++ [128] ++ List.replicate z 0 ++ natToBytesBE 8 (8 * l)

/-- Fold the compression function over all 16-word blocks. -/
def processBlocks (h : Hv) : List Nat → Hv
  | w0 :: w1 :: w2 :: w3 :: w4 :: w5 :: w6 :: w7 ::
    w8 :: w9 :: w10 :: w11 :: w12 :: w13 :: w14 :: w15 :: rest =>
      processBlocks
        (compress h [w0, w1, w2, w3, w4, w5, w6, w7,
                     w8, w9, w10, w11, w12, w13, w14, w15]) rest
  | _ => h

/-- SHA-1 of a byte list: pad, compress block-wise, serialise the final
chaining state big-endian into 20 bytes. -/
def sha1 (msg : List Nat) : List Nat :=
  let h := processBlocks initHv (bytesToWords (padMessage msg))
  natToBytesBE 4 h.a ++ natToBytesBE 4 h.b ++ natToBytesBE 4 h.c ++
  natToBytesBE 4 h.d ++ natToBytesBE 4 h.e

/-! ## The library context API (modelled from the spec) and the wrapper -/

/-- Modelled from the spec: the external library's streaming hash
context, reduced to its functional content — the bytes fed so far. -/
structure SHA_CTX where
  fed : List Nat
  deriving DecidableEq, Repr

/-- Modelled from the spec: a freshly initialised context. -/
def sha1InitCtx : SHA_CTX := ⟨[]⟩

/-- Modelled from the spec: feed bytes into the context. -/
def sha1UpdateCtx (c : SHA_CTX) (bytes : List Nat) : SHA_CTX :=
  ⟨c.fed ++ bytes⟩

/-- Modelled from the spec: finalise the context into the 20-byte
digest. -/
def sha1FinalCtx (c : SHA_CTX) : List Nat := sha1 c.fed

/-- `SHA1_Digest(data, len, digest)` from `sha.c`: a fresh local
context, one update over the first `len` bytes of the buffer, one
finalisation.  The buffer is modelled as its byte-read function
(index to byte value); the 20-byte output is the return value. -/
def SHA1_Digest (data : Nat → Nat) (len : Nat) : List Nat :=
  let sha := sha1InitCtx
  let sha := sha1UpdateCtx sha ((List.range len).map (fun i => data i % 256))
  sha1FinalCtx sha

/-- A sequence of calls to `SHA1_Digest`: each call owns a fresh local
context, so the run is the pointwise image of the call list. -/
def runDigestCalls (calls : List ((Nat → Nat) × Nat)) : List (List Nat) :=
  calls.map (fun c => SHA1_Digest c.1 c.2)

/-- The standard SHA-1 digest of the empty message. -/
def emptyDigestBytes : List Nat :=
  [0xda, 0x39, 0xa3, 0xee, 0x5e, 0x6b, 0x4b, 0x0d, 0x32, 0x55,
   0xbf, 0xef, 0x95, 0x60, 0x18, 0x90, 0xaf, 0xd8, 0x07, 0x09]

/-- A concrete all-zeros input buffer. -/
def zeroBuf : Nat → Nat := fun _ => 0

/-- A concrete input buffer reading `i + 1` at index `i`. -/
def stepBuf : Nat → Nat := fun i => i + 1

/-- A concrete all-ones input buffer. -/
def oneBuf : Nat → Nat := fun _ => 1

/-- A concrete input buffer that agrees with `oneBuf` on indices below 2
and differs from it at every index from 2 on. -/
def mixedBuf : Nat → Nat := fun i => if i < 2 then 1 else 9

end Sha

/-! ## Helper lemmas -/

/-- The compare-exchange built-in on in-range inputs: success exactly on
equality, the word updated to `src` on success and unchanged on failure,
the local expected updated to the observed value on failure. -/
theorem cmpExchange_of_lt {w dst exp src : Nat}
    (hd : dst < 2 ^ w) (he : exp < 2 ^ w) (hs : src < 2 ^ w) :
    AtomicOps.cmpExchange w dst exp src =
      if dst = exp then (src, exp, true) else (dst, dst, false) := by
  unfold AtomicOps.cmpExchange
  rw [Nat.mod_eq_of_lt hd, Nat.mod_eq_of_lt he, Nat.mod_eq_of_lt hs]

/-! ## Claims -/

/-- C1: `atomic_cmpset_int` / `atomic_cmpset_long` replace the word with
`src` iff its current value equals `exp`, return non-zero exactly when
the swap occurred, and leave the word unchanged when they return 0. -/
theorem cmpset_swaps_iff_equal :
    (∀ dst exp src : Nat, dst < 2 ^ 32 → exp < 2 ^ 32 → src < 2 ^ 32 →
      ((AtomicOps.atomic_cmpset_int dst exp src).2 ≠ 0 ↔ dst = exp) ∧
      (AtomicOps.atomic_cmpset_int dst exp src).1 =
        (if dst = exp then src else dst)) ∧
    (∀ dst exp src : Nat, dst < 2 ^ 64 → exp < 2 ^ 64 → src < 2 ^ 64 →
      ((AtomicOps.atomic_cmpset_long dst exp src).2 ≠ 0 ↔ dst = exp) ∧
      (AtomicOps.atomic_cmpset_long dst exp src).1 =
        (if dst = exp then src else dst)) := by
  constructor <;> intro dst exp src hd he hs <;>
    simp only [AtomicOps.atomic_cmpset_int, AtomicOps.atomic_cmpset_long,
      cmpExchange_of_lt hd he hs] <;>
    by_cases h : dst = exp <;> simp [h]

/-- C1 witness: a successful and a failing cmpset at concrete inputs. -/
theorem cmpset_swaps_iff_equal_witness :
    (((AtomicOps.atomic_cmpset_int 7 7 9).2 ≠ 0 ↔ (7 : Nat) = 7) ∧
      (AtomicOps.atomic_cmpset_int 7 7 9).1 =
        (if (7 : Nat) = 7 then 9 else 7)) ∧
    (((AtomicOps.atomic_cmpset_long 3 5 9).2 ≠ 0 ↔ (3 : Nat) = 5) ∧
      (AtomicOps.atomic_cmpset_long 3 5 9).1 =
        (if (3 : Nat) = 5 then 9 else 3)) :=
  ⟨cmpset_swaps_iff_equal.1 7 7 9 (by decide) (by decide) (by decide),
   cmpset_swaps_iff_equal.2 3 5 9 (by decide) (by decide) (by decide)⟩

/-- C2: at each supported width, `set` stores `x ||| v`, `clear` stores
`x &&& ~v` with the complement taken at the word width, `add` stores
`(x + v)` and `subtract` stores `(x - v)`, both modulo `2 ^ w`; the
generated functions return nothing beyond the updated word. -/
theorem atomic_rmw_ops_correct (w x v : Nat)
    (hw : w = 8 ∨ w = 16 ∨ w = 32 ∨ w = 64)
    (hx : x < 2 ^ w) (hv : v < 2 ^ w) :
    AtomicOps.atomic_set w x v = (x ||| v) ∧
    AtomicOps.atomic_clear w x v = x &&& ((2 ^ w - 1) ^^^ v) ∧
    AtomicOps.atomic_add w x v = (x + v) % 2 ^ w ∧
    ((AtomicOps.atomic_subtract w x v : Int) =
      ((x : Int) - (v : Int)) % (2 ^ w : Int)) := by
  clear hw
  have hnot : (2 ^ w - 1) ^^^ v < 2 ^ w :=
    Nat.xor_lt_two_pow (by have := Nat.one_le_two_pow (n := w); omega) hv
  refine ⟨?_, ?_, ?_, ?_⟩
  · simp [AtomicOps.atomic_set, AtomicOps.fetchOr,
      Nat.mod_eq_of_lt hx, Nat.mod_eq_of_lt hv]
  · simp [AtomicOps.atomic_clear, AtomicOps.fetchAnd, AtomicOps.wnot,
      Nat.mod_eq_of_lt hx, Nat.mod_eq_of_lt hv, Nat.mod_eq_of_lt hnot]
  · simp [AtomicOps.atomic_add, AtomicOps.fetchAddB,
      Nat.mod_eq_of_lt hx, Nat.mod_eq_of_lt hv]
  · simp only [AtomicOps.atomic_subtract, AtomicOps.fetchSubB,
      Nat.mod_eq_of_lt hx, Nat.mod_eq_of_lt hv]
    push_cast [Nat.cast_sub (Nat.le_of_lt hv)]
    have hsplit : (x : Int) + ((2 : Int) ^ w - (v : Int)) =
        ((x : Int) - (v : Int)) + (2 : Int) ^ w * 1 := by ring
    rw [hsplit, Int.add_mul_emod_self_left]

/-- C2 witness: the four read-modify-write operations at width 8 on
`x = 5`, `v = 3`. -/
theorem atomic_rmw_ops_correct_witness :
    AtomicOps.atomic_set 8 5 3 = (5 ||| 3) ∧
    AtomicOps.atomic_clear 8 5 3 = 5 &&& ((2 ^ 8 - 1) ^^^ 3) ∧
    AtomicOps.atomic_add 8 5 3 = (5 + 3) % 2 ^ 8 ∧
    ((AtomicOps.atomic_subtract 8 5 3 : Int) =
      ((5 : Int) - (3 : Int)) % (2 ^ 8 : Int)) :=
  atomic_rmw_ops_correct 8 5 3 (Or.inl rfl) (by decide) (by decide)

/-- C3: `atomic_fetchadd_int` stores `(x + v) % 2 ^ 32` and returns the
pre-operation value `x`. -/
theorem fetchadd_int_correct (x v : Nat) (hx : x < 2 ^ 32) (hv : v < 2 ^ 32) :
    AtomicOps.atomic_fetchadd_int x v = ((x + v) % 2 ^ 32, x) := by
  simp only [AtomicOps.atomic_fetchadd_int, AtomicOps.fetchAddB, Prod.mk.injEq]
  constructor <;> omega

/-- C3 witness: fetch-add at `x = 7`, `v = 9`. -/
theorem fetchadd_int_correct_witness :
    AtomicOps.atomic_fetchadd_int 7 9 = ((7 + 9) % 2 ^ 32, 7) :=
  fetchadd_int_correct 7 9 (by decide) (by decide)

/-- C4: `atomic_fetchsubtract_int`, which adds the cast of `-v`, stores
`x - v` modulo `2 ^ 32` for every signed 32-bit operand `v`, including
the most negative one, and returns the pre-operation value `x`. -/
theorem fetchsubtract_int_correct (x : Nat) (v : Int) (hx : x < 2 ^ 32)
    (hlo : -(2 ^ 31) ≤ v) (hhi : v < 2 ^ 31) :
    ((AtomicOps.atomic_fetchsubtract_int x v).1 : Int) =
      ((x : Int) - v) % (2 ^ 32 : Int) ∧
    (AtomicOps.atomic_fetchsubtract_int x v).2 = x := by
  clear hlo hhi
  have hm : (0 : Int) < (2 ^ 32 : Int) := by positivity
  have hnn : (0 : Int) ≤ (-v) % (2 ^ 32 : Int) := Int.emod_nonneg _ (by positivity)
  have hlt : ((-v) % (2 ^ 32 : Int)).toNat < 2 ^ 32 := by
    have := Int.emod_lt_of_pos (-v) hm
    omega
  constructor
  · simp only [AtomicOps.atomic_fetchsubtract_int, AtomicOps.fetchAddB]
    push_cast
    omega
  · simp only [AtomicOps.atomic_fetchsubtract_int, AtomicOps.fetchAddB]
    omega

/-- C4 witness: fetch-subtract at `x = 5` with the most negative
operand `v = -2 ^ 31`. -/
theorem fetchsubtract_int_correct_witness :
    (((AtomicOps.atomic_fetchsubtract_int 5 (-(2 ^ 31))).1 : Int) =
      ((5 : Int) - (-(2 ^ 31))) % (2 ^ 32 : Int) ∧
    (AtomicOps.atomic_fetchsubtract_int 5 (-(2 ^ 31))).2 = 5) :=
  fetchsubtract_int_correct 5 (-(2 ^ 31)) (by decide) (by decide) (by decide)

/-- C5: `atomic_readandclear_int` / `atomic_readandclear_long` return
the value the word held immediately before the call and leave the word
equal to 0 afterwards. -/
theorem readandclear_correct :
    (∀ x : Nat, x < 2 ^ 32 →
      AtomicOps.atomic_readandclear_int x = (0, x)) ∧
    (∀ x : Nat, x < 2 ^ 64 →
      AtomicOps.atomic_readandclear_long x = (0, x)) := by
  constructor <;> intro x hx <;>
    simp only [AtomicOps.atomic_readandclear_int,
      AtomicOps.atomic_readandclear_long, AtomicOps.exchange,
      Prod.mk.injEq] <;>
    constructor <;> omega

/-- C5 witness: read-and-clear at `x = 5` for both widths. -/
theorem readandclear_correct_witness :
    AtomicOps.atomic_readandclear_int 5 = (0, 5) ∧
    AtomicOps.atomic_readandclear_long 5 = (0, 5) :=
  ⟨readandclear_correct.1 5 (by decide), readandclear_correct.2 5 (by decide)⟩

/-- C6 counterexample: not every operation of the interface is defined
at every one of the four widths — `cmpset` has no 8-bit entry point. -/
theorem entry_point_table_not_total :
    ¬ (∀ (op : AtomicOps.AOp) (w : AtomicOps.AWidth),
        AtomicOps.definedAt op w = true) := by
  decide

/-- C6 amended: `set`, `clear`, `add`, `subtract`, `loadAcquire` and
`storeRelease` are defined at all four widths; `compareAndSwap` and
`readAndClear` only at widths 32 and 64; `fetchAdd` and `fetchSubtract`
only at width 32. -/
theorem entry_point_table_exact :
    ∀ (op : AtomicOps.AOp) (w : AtomicOps.AWidth),
      AtomicOps.definedAt op w = true ↔
        ((op = AtomicOps.AOp.cmpset ∨ op = AtomicOps.AOp.readandclear →
            w = AtomicOps.AWidth.w32 ∨ w = AtomicOps.AWidth.w64) ∧
         (op = AtomicOps.AOp.fetchadd ∨ op = AtomicOps.AOp.fetchsubtract →
            w = AtomicOps.AWidth.w32)) := by
  decide

/-- C8: every acquire- or release-suffixed entry point computes exactly
what the corresponding default-ordering entry point computes, on all
inputs. -/
theorem acq_rel_aliases_extensionally_equal :
    (∀ x v, AtomicOps.atomic_set_acq_char x v = AtomicOps.atomic_set_char x v) ∧
    (∀ x v, AtomicOps.atomic_set_rel_char x v = AtomicOps.atomic_set_char x v) ∧
    (∀ x v, AtomicOps.atomic_clear_acq_char x v = AtomicOps.atomic_clear_char x v) ∧
    (∀ x v, AtomicOps.atomic_clear_rel_char x v = AtomicOps.atomic_clear_char x v) ∧
    (∀ x v, AtomicOps.atomic_add_acq_char x v = AtomicOps.atomic_add_char x v) ∧
    (∀ x v, AtomicOps.atomic_add_rel_char x v = AtomicOps.atomic_add_char x v) ∧
    (∀ x v, AtomicOps.atomic_subtract_acq_char x v = AtomicOps.atomic_subtract_char x v) ∧
    (∀ x v, AtomicOps.atomic_subtract_rel_char x v = AtomicOps.atomic_subtract_char x v) ∧
    (∀ x v, AtomicOps.atomic_set_acq_short x v = AtomicOps.atomic_set_short x v) ∧
    (∀ x v, AtomicOps.atomic_set_rel_short x v = AtomicOps.atomic_set_short x v) ∧
    (∀ x v, AtomicOps.atomic_clear_acq_short x v = AtomicOps.atomic_clear_short x v) ∧
    (∀ x v, AtomicOps.atomic_clear_rel_short x v = AtomicOps.atomic_clear_short x v) ∧
    (∀ x v, AtomicOps.atomic_add_acq_short x v = AtomicOps.atomic_add_short x v) ∧
    (∀ x v, AtomicOps.atomic_add_rel_short x v = AtomicOps.atomic_add_short x v) ∧
    (∀ x v, AtomicOps.atomic_subtract_acq_short x v = AtomicOps.atomic_subtract_short x v) ∧
    (∀ x v, AtomicOps.atomic_subtract_rel_short x v = AtomicOps.atomic_subtract_short x v) ∧
    (∀ x v, AtomicOps.atomic_set_acq_int x v = AtomicOps.atomic_set_int x v) ∧
    (∀ x v, AtomicOps.atomic_set_rel_int x v = AtomicOps.atomic_set_int x v) ∧
    (∀ x v, AtomicOps.atomic_clear_acq_int x v = AtomicOps.atomic_clear_int x v) ∧
    (∀ x v, AtomicOps.atomic_clear_rel_int x v = AtomicOps.atomic_clear_int x v) ∧
    (∀ x v, AtomicOps.atomic_add_acq_int x v = AtomicOps.atomic_add_int x v) ∧
    (∀ x v, AtomicOps.atomic_add_rel_int x v = AtomicOps.atomic_add_int x v) ∧
    (∀ x v, AtomicOps.atomic_subtract_acq_int x v = AtomicOps.atomic_subtract_int x v) ∧
    (∀ x v, AtomicOps.atomic_subtract_rel_int x v = AtomicOps.atomic_subtract_int x v) ∧
    (∀ d e s, AtomicOps.atomic_cmpset_acq_int d e s = AtomicOps.atomic_cmpset_int d e s) ∧
    (∀ d e s, AtomicOps.atomic_cmpset_rel_int d e s = AtomicOps.atomic_cmpset_int d e s) ∧
    (∀ x v, AtomicOps.atomic_set_acq_long x v = AtomicOps.atomic_set_long x v) ∧
    (∀ x v, AtomicOps.atomic_set_rel_long x v = AtomicOps.atomic_set_long x v) ∧
    (∀ x v, AtomicOps.atomic_clear_acq_long x v = AtomicOps.atomic_clear_long x v) ∧
    (∀ x v, AtomicOps.atomic_clear_rel_long x v = AtomicOps.atomic_clear_long x v) ∧
    (∀ x v, AtomicOps.atomic_add_acq_long x v = AtomicOps.atomic_add_long x v) ∧
    (∀ x v, AtomicOps.atomic_add_rel_long x v = AtomicOps.atomic_add_long x v) ∧
    (∀ x v, AtomicOps.atomic_subtract_acq_long x v = AtomicOps.atomic_subtract_long x v) ∧
    (∀ x v, AtomicOps.atomic_subtract_rel_long x v = AtomicOps.atomic_subtract_long x v) ∧
    (∀ d e s, AtomicOps.atomic_cmpset_acq_long d e s = AtomicOps.atomic_cmpset_long d e s) ∧
    (∀ d e s, AtomicOps.atomic_cmpset_rel_long d e s = AtomicOps.atomic_cmpset_long d e s) := by
  refine ⟨?_, ?_, ?_, ?_, ?_, ?_, ?_, ?_, ?_, ?_, ?_, ?_, ?_, ?_, ?_, ?_, ?_,
    ?_, ?_, ?_, ?_, ?_, ?_, ?_, ?_, ?_, ?_, ?_, ?_, ?_, ?_, ?_, ?_, ?_, ?_, ?_⟩ <;>
    intros <;> rfl

/-- C9: a cmpset call never modifies the caller's expected-value
variable — it is passed by value — and on failure the compare-exchange
built-in's update of the expected value lands only in the callee's
local copy, which receives the observed word value. -/
theorem cmpset_preserves_caller_exp (w : Nat) (s : AtomicOps.CmpsetCaller)
    (src : Nat) (hd : s.dst < 2 ^ w) (he : s.exp < 2 ^ w) :
    (AtomicOps.cmpsetCall w s src).1.exp = s.exp ∧
    (s.dst ≠ s.exp → (AtomicOps.cmpsetCall w s src).2.1 = s.dst) := by
  constructor
  · rfl
  · intro hne
    simp only [AtomicOps.cmpsetCall, AtomicOps.cmpExchange,
      Nat.mod_eq_of_lt hd, Nat.mod_eq_of_lt he, if_neg hne]

/-- C9 witness: a failing cmpset call with `dst = 3`, `exp = 5`. -/
theorem cmpset_preserves_caller_exp_witness :
    (AtomicOps.cmpsetCall 32 ⟨3, 5⟩ 9).1.exp = (5 : Nat) ∧
    ((3 : Nat) ≠ (5 : Nat) → (AtomicOps.cmpsetCall 32 ⟨3, 5⟩ 9).2.1 = 3) :=
  cmpset_preserves_caller_exp 32 ⟨3, 5⟩ 9 (by decide) (by decide)

set_option maxRecDepth 10000 in
/-- C7: the output slot of any `SHA1_Digest` call in any call sequence
is determined by that call's input alone — identical (buffer, length)
inputs give identical 20-byte outputs at any positions of any two call
sequences — and the zero-length input yields the standard SHA-1 digest
of the empty message. -/
theorem sha1_digest_deterministic_stateless
    (calls1 calls2 : List ((Nat → Nat) × Nat)) (i j : Nat)
    (h1 : i < calls1.length) (h2 : j < calls2.length)
    (heq : calls1.getD i ((fun _ => 0), 0) = calls2.getD j ((fun _ => 0), 0)) :
    (Sha.runDigestCalls calls1).getD i [] =
      (Sha.runDigestCalls calls2).getD j [] ∧
    Sha.SHA1_Digest (fun _ => 0) 0 = Sha.emptyDigestBytes := by
  constructor
  · have l1 : i < (Sha.runDigestCalls calls1).length := by
      simpa [Sha.runDigestCalls] using h1
    have l2 : j < (Sha.runDigestCalls calls2).length := by
      simpa [Sha.runDigestCalls] using h2
    rw [List.getD_eq_getElem _ _ l1, List.getD_eq_getElem _ _ l2]
    rw [List.getD_eq_getElem _ _ h1, List.getD_eq_getElem _ _ h2] at heq
    simp only [Sha.runDigestCalls, List.getElem_map]
    rw [heq]
  · decide

/-- C7 witness: a one-call sequence and a two-call sequence whose second
call repeats the first sequence's only input. -/
theorem sha1_digest_deterministic_stateless_witness :
    (Sha.runDigestCalls [(Sha.zeroBuf, 0)]).getD 0 [] =
      (Sha.runDigestCalls [(Sha.stepBuf, 3), (Sha.zeroBuf, 0)]).getD 1 [] ∧
    Sha.SHA1_Digest (fun _ => 0) 0 = Sha.emptyDigestBytes :=
  sha1_digest_deterministic_stateless
    [(Sha.zeroBuf, 0)] [(Sha.stepBuf, 3), (Sha.zeroBuf, 0)]
    0 1 (by decide) (by decide) rfl

/-- C10: the digest output depends only on the first `len` bytes of the
input buffer — two buffers agreeing on indices below `len` give the
same 20-byte output. -/
theorem sha1_digest_depends_only_on_read_bytes
    (d1 d2 : Nat → Nat) (len : Nat) (h : ∀ i, i < len → d1 i = d2 i) :
    Sha.SHA1_Digest d1 len = Sha.SHA1_Digest d2 len := by
  simp only [Sha.SHA1_Digest, Sha.sha1InitCtx, Sha.sha1UpdateCtx,
    Sha.sha1FinalCtx]
  congr 1
  apply List.map_congr_left
  intro a ha
  rw [List.mem_range] at ha
  rw [h a ha]

/-- C10 witness: two buffers equal on indices 0 and 1 but different
from index 2 on, digested with `len = 2`. -/
theorem sha1_digest_depends_only_on_read_bytes_witness :
    Sha.SHA1_Digest Sha.oneBuf 2 = Sha.SHA1_Digest Sha.mixedBuf 2 :=
  sha1_digest_depends_only_on_read_bytes Sha.oneBuf Sha.mixedBuf 2
    (fun i hi => by simp [Sha.oneBuf, Sha.mixedBuf, hi])
